import Mathlib

set_option maxRecDepth 10000

/-!
Verification of the query/aggregation and budget-evaluation core of a
personal-finance tracker backed by a cloud document store (source: app.py).

The document store is modelled as in-memory typed collections held in a `DB`
record.  Document identifiers are natural numbers handed out by a single
`nextId` counter (the store assigns a fresh id on every `add`; queries with
no explicit ordering return documents in id order, which in this model is
list order because ids increase along each list).  Amounts are modelled as
rationals: the source coerces every amount with `float(...)`, and every
amount appearing in the verified scenarios is exactly representable, with
exact sums, in binary floating point, so rational arithmetic agrees with the
float arithmetic the code performs on those inputs.  Strings keep the
source's lexicographic comparison semantics: Firestore compares string
fields bytewise and pandas compares Python strings pointwise, and for the
ASCII ISO dates used by the program both coincide with the character-wise
lexicographic order `strLtB` below.

Fallible store calls are modelled with `Except StoreErr`: each reader of the
source has a `..._fetched` variant taking the outcome of the store round
trip, mirroring the try/except structure of the code, and the plain variant
instantiates it with the successful outcome computed from the `DB` state.
-/

/-- Error taxonomy of the store client as caught in app.py: the exception
classes `FailedPrecondition` (missing composite index), `ServiceUnavailable`,
`RetryError`, and a catch-all for any other exception. -/
inductive StoreErr where
  | failedPrecondition (msg : String)
  | serviceUnavailable (msg : String)
  | retryError (msg : String)
  | other (msg : String)
deriving DecidableEq

/-- Strict character-wise lexicographic order on character lists.  This is
the comparison Firestore applies to string fields and Python applies to
`str` values, restricted to the ASCII strings this program stores. -/
def strLtB : List Char → List Char → Bool
  | [], [] => false
  | [], _ :: _ => true
  | _ :: _, [] => false
  | a :: as, b :: bs => a < b || (a == b && strLtB as bs)

/-- Non-strict lexicographic order on strings, `a ≤ b`. -/
def strLeB (a b : String) : Bool := !(strLtB b.data a.data)

/-- Lowercase a string character-wise; models Python `str.lower()` on the
ASCII text this program compares (source line 274: `.str.lower()`). -/
def strLower (s : String) : String := ⟨s.data.map Char.toLower⟩

/-- Substring occurrence test: `pat` occurs contiguously inside `s`. -/
def containsSub (pat s : List Char) : Bool :=
  (List.range (s.length + 1)).any fun i => pat.isPrefixOf (s.drop i)

/-! ### The remediation-URL extraction of app.py lines 76-86

`extract_index_url_from_error` runs two Python regular expressions with
`re.search` and returns group 1 of the first that matches, else the empty
string:

  pattern 1: `(https?://console\.firebase\.google\.com/[^ ]*create_composite=[^ \n\r]+)`
  pattern 2: `(https?://console\.firebase\.google\.com/[^\s]+/indexes\?[^\s]+)`

`re.search` returns the match at the leftmost starting position at which the
whole pattern can match; quantifiers are greedy.  The model below reproduces
this exactly for these two patterns: `genMatchAt s i` decides whether the
pattern matches starting at index `i` and produces the greedy match;
`https?` is the disjoint choice between the two literal prefixes; the greedy
`[^ ]*` (resp. `[^\s]+`) followed by a literal backtracks to the last
position `j` at which the literal plus the rest of the pattern still match,
which is the last element of the candidate list `genCands`; the final
`[^ \n\r]+` (resp. `[^\s]+`) greedily takes the maximal run of allowed
characters, required non-empty.  `\s` is modelled by the ASCII whitespace
characters, which is exact for the ASCII diagnostic texts of the store
client. -/

/-- Characters matched by the Python class `\s`, restricted to ASCII. -/
def isWsPy (c : Char) : Bool :=
  c == ' ' || c == '\t' || c == '\n' || c == '\r' || c == '\x0b' || c == '\x0c'

/-- Complement of `\s`: the character class `[^\s]`. -/
def notWs (c : Char) : Bool := !(isWsPy c)

/-- The character class `[^ \n\r]` of pattern 1. -/
def notBad1 (c : Char) : Bool := !(c == ' ' || c == '\n' || c == '\r')

/-- The character class `[^ ]` of pattern 1. -/
def notSpace (c : Char) : Bool := !(c == ' ')

/-- Literal console-URL prefix with the `https` alternative of `https?`. -/
def httpsConsole : List Char := "https://console.firebase.google.com/".data

/-- Literal console-URL prefix with the `http` alternative of `https?`. -/
def httpConsole : List Char := "http://console.firebase.google.com/".data

/-- The literal `create_composite=` of pattern 1. -/
def ccLit : List Char := "create_composite=".data

/-- The literal `/indexes?` of pattern 2. -/
def idxLit : List Char := "/indexes?".data

/-- The host substring both patterns require. -/
def conLit : List Char := "console.firebase.google.com".data

/-- Match the leading `https?://console\.firebase\.google\.com/` of both
patterns at index `i`; on success return the index just past it.  The two
alternatives are disjoint (the character after `http` is either `s` or `:`),
so trying `https` first is equivalent to the greedy `s?` of the regex. -/
def consolePrefixLen (s : List Char) (i : Nat) : Option Nat :=
  if httpsConsole.isPrefixOf (s.drop i) then some (i + httpsConsole.length)
  else if httpConsole.isPrefixOf (s.drop i) then some (i + httpConsole.length)
  else none

/-- The segment of `s` from index `p` (inclusive) to `j` (exclusive). -/
def seg (s : List Char) (p j : Nat) : List Char := (s.drop p).take (j - p)

/-- Length of the maximal run of characters satisfying `tailOk` starting at
index `k`: the text consumed by the final greedy `+`-quantified class. -/
def tailRun (s : List Char) (tailOk : Char → Bool) (k : Nat) : Nat :=
  ((s.drop k).takeWhile tailOk).length

/-- Candidate backtracking positions `j` for the literal `lit` following the
greedy middle class: the middle class must cover `s[p..j)` (every character
satisfying `midOk`, with at least `minGap` characters), `lit` must occur at
`j`, and the final `+`-quantified class must consume at least one character
after it.  The greedy regex engine commits to the largest viable `j`. -/
def genCands (s : List Char) (p : Nat) (lit : List Char)
    (midOk tailOk : Char → Bool) (minGap : Nat) : List Nat :=
  (List.range (s.length + 1)).filter fun j =>
    decide (p + minGap ≤ j) && lit.isPrefixOf (s.drop j) &&
      (seg s p j).all midOk && decide (1 ≤ tailRun s tailOk (j + lit.length))

/-- Greedy match of either full pattern at starting index `i`; returns the
matched text (= capture group 1, which spans the whole pattern). -/
def genMatchAt (s : List Char) (i : Nat) (lit : List Char)
    (midOk tailOk : Char → Bool) (minGap : Nat) : Option (List Char) :=
  match consolePrefixLen s i with
  | none => none
  | some p =>
    match (genCands s p lit midOk tailOk minGap).getLast? with
    | none => none
    | some j => some (seg s i (j + lit.length + tailRun s tailOk (j + lit.length)))

/-- Pattern 1 (`...[^ ]*create_composite=[^ \n\r]+`) matched at index `i`. -/
def match1At (s : List Char) (i : Nat) : Option (List Char) :=
  genMatchAt s i ccLit notSpace notBad1 0

/-- Pattern 2 (`...[^\s]+/indexes\?[^\s]+`) matched at index `i`. -/
def match2At (s : List Char) (i : Nat) : Option (List Char) :=
  genMatchAt s i idxLit notWs notWs 1

/-- Leftmost match of pattern 1, as found by `re.search`. -/
def search1 (s : List Char) : Option (List Char) :=
  (List.range s.length).findSome? fun i => match1At s i

/-- Leftmost match of pattern 2. -/
def search2 (s : List Char) : Option (List Char) :=
  (List.range s.length).findSome? fun i => match2At s i

/-- app.py lines 76-86: look for a firebase console URL inside an exception
message and return it, trying pattern 1 then pattern 2, else return `""`. -/
def extract_index_url_from_error (exc_text : String) : String :=
  match search1 exc_text.data with
  | some u => ⟨u⟩
  | none =>
    match search2 exc_text.data with
    | some u => ⟨u⟩
    | none => ""

/-- Whether pattern 1 matches somewhere in `s`. -/
def hasPattern1 (s : String) : Bool :=
  (List.range s.data.length).any fun i => (match1At s.data i).isSome

/-- Whether pattern 2 matches somewhere in `s`. -/
def hasPattern2 (s : String) : Bool :=
  (List.range s.data.length).any fun i => (match2At s.data i).isSome

/-- Whether the console host name occurs anywhere in `s`. -/
def hasConsoleLink (s : String) : Bool := containsSub conLit s.data

/-- app.py lines 88-101, `safe_get`: run the store round trip; a
`FailedPrecondition` (missing index) is re-raised as a `FailedPrecondition`
whose message carries the extracted remediation URL; a `ServiceUnavailable`
is re-raised as a `ServiceUnavailable` with a friendly message; every other
exception is re-raised unchanged; a successful result is returned as is. -/
def safe_get {α : Type} (res : Except StoreErr α) : Except StoreErr α :=
  match res with
  | .ok docs => .ok docs
  | .error (.failedPrecondition m) =>
      .error (.failedPrecondition
        ("Index required: " ++ m ++ ". Create it here: " ++
          extract_index_url_from_error m))
  | .error (.serviceUnavailable m) =>
      .error (.serviceUnavailable ("Service temporarily unavailable: " ++ m))
  | .error e => .error e

/-! ### The data model (collections of app.py) -/

/-- A document of the `users` collection: username and password digest
(app.py line 157; the creation timestamp plays no role in any operation and
is omitted). -/
structure UserDoc where
  id : Nat
  username : String
  password : String
deriving DecidableEq

/-- A document of the `categories` collection (app.py lines 167, 228). -/
structure CategoryDoc where
  id : Nat
  user_id : Nat
  name : String
  ctype : String
deriving DecidableEq

/-- A document of the `expenses` or `incomes` collection (app.py lines
235-242, 286-293; the server timestamp plays no role in any operation and is
omitted). -/
structure EntryDoc where
  id : Nat
  user_id : Nat
  date : String
  category : String
  amount : ℚ
  description : String
deriving DecidableEq

/-- A document of the `budgets` collection (app.py line 342). -/
structure BudgetDoc where
  id : Nat
  user_id : Nat
  month : String
  budget : ℚ
deriving DecidableEq

/-- A document of the `category_budgets` collection (app.py line 368). -/
structure CatBudgetDoc where
  id : Nat
  user_id : Nat
  month : String
  category : String
  budget : ℚ
deriving DecidableEq

/-- The whole store: one list per collection, in document-id order, plus the
counter from which the store assigns fresh ids. -/
structure DB where
  users : List UserDoc
  categories : List CategoryDoc
  expenses : List EntryDoc
  incomes : List EntryDoc
  budgets : List BudgetDoc
  category_budgets : List CatBudgetDoc
  nextId : Nat
deriving DecidableEq

/-- The empty store. -/
def dbEmpty : DB := ⟨[], [], [], [], [], [], 0⟩

/-! ### Queries

A Firestore query `col.where(f1).where(f2)...limit(1)` returns the first
matching document in id order, which in this model is `List.find?` on the
collection list.  A `collection_to_df` call (app.py lines 103-138) composes
the filters conjunctively, optionally sorts by the `order_by` field
(Firestore sorts ascending, ties in id order, which the stable structural
insertion sort reproduces), optionally truncates to `limit` rows (the code
guards with `if limit:`, so a limit of 0 is not applied), and converts the
documents to rows; in this typed model the row normalization (injecting
`_id`, coercing `amount` to float, keeping `date` a string) is the identity.
-/

/-- The conjunction of server-side filters built by `get_expenses` and
`get_incomes` (app.py lines 251-257, 302-308): equality on `user_id`, range
on `date` (when bounds are given), equality on `category` (when given). -/
def entryFilters (uid : Nat) (sd ed cat : Option String) (x : EntryDoc) : Bool :=
  (x.user_id == uid) &&
  (match sd with | none => true | some s => strLeB s x.date) &&
  (match ed with | none => true | some e => strLeB x.date e) &&
  (match cat with | none => true | some c => x.category == c)

/-- app.py lines 103-138 as called on an entry collection with
`order_by="date"`: filter, sort ascending by date, truncate to `limit`. -/
def collection_to_df (col : List EntryDoc) (pred : EntryDoc → Bool) (lim : Nat) :
    List EntryDoc :=
  let sorted := List.insertionSort (fun a b => strLeB a.date b.date = true) (col.filter pred)
  if lim = 0 then sorted else sorted.take lim

/-- Client-side refinement on description (app.py lines 273-274): when a
text query is given, keep rows whose lowercased description contains the
lowercased query. -/
def descrMatch (qt : Option String) (x : EntryDoc) : Bool :=
  match qt with
  | none => true
  | some t => containsSub (strLower t).data (strLower x.description).data

/-- Client-side lower amount bound (app.py lines 275-276): `amount >= min`. -/
def minOk (lo : Option ℚ) (x : EntryDoc) : Bool :=
  match lo with | none => true | some a => decide (a ≤ x.amount)

/-- Client-side upper amount bound (app.py lines 277-278): `amount <= max`. -/
def maxOk (hi : Option ℚ) (x : EntryDoc) : Bool :=
  match hi with | none => true | some a => decide (x.amount ≤ a)

/-- app.py lines 258-281 after the store round trip: on any store failure
(`FailedPrecondition`, `ServiceUnavailable`, or any other exception) return
the empty frame; on success apply the client-side description and amount
refinements and sort descending by date (`sort_values("date",
ascending=False)`; the early return of an empty frame at line 271 equals
running the same pipeline on no rows). -/
def get_expenses_fetched (fetched : Except StoreErr (List EntryDoc))
    (qt : Option String) (lo hi : Option ℚ) : List EntryDoc :=
  match fetched with
  | .error _ => []
  | .ok df =>
    List.insertionSort (fun a b => strLeB b.date a.date = true)
      (((df.filter (descrMatch qt)).filter (minOk lo)).filter (maxOk hi))

/-- app.py lines 248-281, `get_expenses`, on a functioning store. -/
def get_expenses (db : DB) (uid : Nat) (sd ed cat qt : Option String)
    (lo hi : Option ℚ) (lim : Nat) : List EntryDoc :=
  get_expenses_fetched
    (Except.ok (collection_to_df db.expenses (entryFilters uid sd ed cat) lim)) qt lo hi

/-- app.py lines 309-330 after the store round trip: the income reader
duplicates the expense reader. -/
def get_incomes_fetched (fetched : Except StoreErr (List EntryDoc))
    (qt : Option String) (lo hi : Option ℚ) : List EntryDoc :=
  match fetched with
  | .error _ => []
  | .ok df =>
    List.insertionSort (fun a b => strLeB b.date a.date = true)
      (((df.filter (descrMatch qt)).filter (minOk lo)).filter (maxOk hi))

/-- app.py lines 299-330, `get_incomes`, on a functioning store. -/
def get_incomes (db : DB) (uid : Nat) (sd ed cat qt : Option String)
    (lo hi : Option ℚ) (lim : Nat) : List EntryDoc :=
  get_incomes_fetched
    (Except.ok (collection_to_df db.incomes (entryFilters uid sd ed cat) lim)) qt lo hi

/-! ### Users (app.py lines 148-200) -/

/-- app.py lines 148-177, `create_user`, on a functioning store, with the
digest function (`hashlib.sha256(...).hexdigest()`, an external library
primitive) passed as a parameter: check whether the username exists; if so
fail; otherwise insert the user with the hashed password and seed the
default categories (six expense, four income) in one batch.  Returns the new
store, the success flag and the message of the source. -/
def seedCats (uid : Nat) : Nat → List (String × String) → List CategoryDoc
  | _, [] => []
  | startId, (n, t) :: rest => ⟨startId, uid, n, t⟩ :: seedCats uid (startId + 1) rest

/-- Default expense categories (app.py line 161). -/
def defaults_exp : List String := ["Food", "Transport", "Shopping", "Bills", "Entertainment", "Other"]

/-- Default income categories (app.py line 162). -/
def defaults_inc : List String := ["Salary", "Interest", "Gift", "Other"]

/-- app.py lines 148-177: see `seedCats`. -/
def create_user (hash : String → String) (db : DB) (username password : String) :
    DB × Bool × String :=
  match db.users.find? (fun u => u.username == username) with
  | some _ => (db, false, "Username already exists")
  | none =>
    let uid := db.nextId
    let hashed := hash password
    let cats := seedCats uid (uid + 1)
      ((defaults_exp.map fun n => (n, "expense")) ++ (defaults_inc.map fun n => (n, "income")))
    ({ db with
        users := db.users ++ [⟨uid, username, hashed⟩],
        categories := db.categories ++ cats,
        nextId := uid + 1 + cats.length }, true, "Created")

/-- app.py lines 179-200, `authenticate`, on a functioning store: query the
first user whose `username` equals the given name and whose `password`
equals the digest of the given password; return its document id, else
`none`. -/
def authenticate (hash : String → String) (db : DB) (username password : String) :
    Option Nat :=
  (db.users.find? fun u => u.username == username && u.password == hash password).map
    fun u => u.id

/-! ### Categories (app.py lines 203-229) -/

/-- app.py lines 203-216, `get_categories`, on a functioning store:
`collection_to_df` with equality filters on `user_id` and `type` and
`order_by="name"`, then the list of the `name` column. -/
def get_categories (db : DB) (uid : Nat) (ctype : String) : List String :=
  (List.insertionSort (fun a b : CategoryDoc => strLeB a.name b.name = true)
      (db.categories.filter fun c => c.user_id == uid && c.ctype == ctype)).map
    fun c => c.name

/-- app.py lines 218-229, `add_category`, on a functioning store: query one
document matching `(user_id, name, type)`; if present return `false`,
otherwise insert the category and return `true`. -/
def add_category (db : DB) (uid : Nat) (name ctype : String) : DB × Bool :=
  match db.categories.find? (fun c => c.user_id == uid && c.name == name && c.ctype == ctype) with
  | some _ => (db, false)
  | none =>
    ({ db with
        categories := db.categories ++ [⟨db.nextId, uid, name, ctype⟩],
        nextId := db.nextId + 1 }, true)

/-! ### Ledger writers (app.py lines 232-246, 283-297) -/

/-- app.py lines 232-246, `add_expense`, on a functioning store. -/
def add_expense (db : DB) (uid : Nat) (date_s category : String) (amount : ℚ)
    (description : String) : DB × Bool :=
  ({ db with
      expenses := db.expenses ++ [⟨db.nextId, uid, date_s, category, amount, description⟩],
      nextId := db.nextId + 1 }, true)

/-- app.py lines 283-297, `add_income`, on a functioning store. -/
def add_income (db : DB) (uid : Nat) (date_s category : String) (amount : ℚ)
    (description : String) : DB × Bool :=
  ({ db with
      incomes := db.incomes ++ [⟨db.nextId, uid, date_s, category, amount, description⟩],
      nextId := db.nextId + 1 }, true)

/-! ### Budgets (app.py lines 333-357) -/

/-- The key filter of the monthly-budget queries (app.py lines 337, 350):
equality on `user_id` and on `month`. -/
def budgetKey (uid : Nat) (month : String) (b : BudgetDoc) : Bool :=
  b.user_id == uid && b.month == month

/-- The effect of `col.document(docId).update({"budget": v})` (app.py line
340) on one stored document: the document with the targeted id gets its
`budget` field replaced, every other document is returned unchanged. -/
def updBudget (docId : Nat) (v : ℚ) (x : BudgetDoc) : BudgetDoc :=
  if x.id == docId then { x with budget := v } else x

/-- app.py lines 333-344, `set_monthly_budget`, on a functioning store:
query the first document matching `(user_id, month)`; if present update its
`budget` field in place, otherwise add a fresh document. -/
def set_monthly_budget (db : DB) (uid : Nat) (month : String) (budget : ℚ) : DB :=
  match db.budgets.find? (budgetKey uid month) with
  | some b => { db with budgets := db.budgets.map (updBudget b.id budget) }
  | none =>
    { db with
        budgets := db.budgets ++ [⟨db.nextId, uid, month, budget⟩],
        nextId := db.nextId + 1 }

/-- app.py lines 346-357 after the store round trip: on any store failure
return `none`; on success return the `budget` field of the first returned
document, or `none` when the query matched nothing. -/
def get_monthly_budget_fetched (fetched : Except StoreErr (List BudgetDoc)) : Option ℚ :=
  match fetched with
  | .error _ => none
  | .ok [] => none
  | .ok (b :: _) => some b.budget

/-- app.py lines 346-357, `get_monthly_budget`, on a functioning store. -/
def get_monthly_budget (db : DB) (uid : Nat) (month : String) : Option ℚ :=
  get_monthly_budget_fetched (Except.ok ((db.budgets.filter (budgetKey uid month)).take 1))

/-- Number of stored budget documents for the key `(uid, month)`. -/
def countBudget (db : DB) (uid : Nat) (month : String) : Nat :=
  (db.budgets.filter (budgetKey uid month)).length

/-! ### Report aggregation (app.py lines 386-399)

`generate_pdf` first computes the structured summary (totals, net, category
grouping) and only then hands the numbers to the external rendering
collaborator; the aggregation prefix of lines 389-399 is modelled here. -/

/-- Sum of the `amount` column of a frame of rows (`df["amount"].sum()`;
the source returns 0.0 for an empty frame, as does the empty sum). -/
def amountSum (rows : List EntryDoc) : ℚ := (rows.map fun r => r.amount).sum

/-- One group of `df.groupby("category")["amount"].sum()`: the summed
amount of the rows in category `c`. -/
def categorySum (rows : List EntryDoc) (c : String) : ℚ :=
  amountSum (rows.filter fun r => r.category == c)

/-- app.py lines 389-394: the month is widened to the inclusive date range
`month-01 .. month-31`, the two ledgers are listed with no further filters,
and the totals and net are computed; returns
`(total_expense, total_income, net)`. -/
def report_summary (db : DB) (uid : Nat) (month : String) : ℚ × ℚ × ℚ :=
  let startD := month ++ "-01"
  let endD := month ++ "-31"
  let exp_df := get_expenses db uid (some startD) (some endD) none none none none 1000
  let inc_df := get_incomes db uid (some startD) (some endD) none none none none 1000
  (amountSum exp_df, amountSum inc_df, amountSum inc_df - amountSum exp_df)

/-- The expense frame of the report of `dbC3` (see `dbC3`). -/
def reportExpenses (db : DB) (uid : Nat) (month : String) : List EntryDoc :=
  get_expenses db uid (some (month ++ "-01")) (some (month ++ "-31")) none none none none 1000

/-- The full match predicate a stored entry has to satisfy to be reported by
`get_expenses` when no truncation interferes: the server-side filters plus
both client-side refinements. -/
def matchesAllCriteria (uid : Nat) (sd ed cat qt : Option String)
    (lo hi : Option ℚ) (x : EntryDoc) : Bool :=
  entryFilters uid sd ed cat x && descrMatch qt x && minOk lo x && maxOk hi x

/-! ### Concrete stores and texts used by the verified scenarios -/

/-- The ledger of the summary scenario: user 0 owns the expenses
`("2024-05-03", Food, 20)` and `("2024-05-20", Food, 5)` and the income
`("2024-05-01", Salary, 1000)`. -/
def dbC3 : DB :=
  ⟨[⟨0, "u", "h"⟩],
   [],
   [⟨1, 0, "2024-05-03", "Food", 20, ""⟩, ⟨2, 0, "2024-05-20", "Food", 5, ""⟩],
   [⟨3, 0, "2024-05-01", "Salary", 1000, ""⟩],
   [], [], 4⟩

/-- A store in which user 3 owns two expenses; only the later one carries
the description "coffee run". -/
def dbLimit : DB :=
  ⟨[⟨0, "u", "h"⟩],
   [],
   [⟨1, 3, "2024-01-01", "Misc", 1, "x"⟩, ⟨2, 3, "2024-01-02", "Misc", 2, "coffee run"⟩],
   [], [], [], 4⟩

/-- A store holding exactly one monthly-budget document, for user 1 and
month 2024-05. -/
def dbBudget : DB := ⟨[], [], [], [], [⟨0, 1, "2024-05", 50⟩], [], 1⟩

/-- A realistic missing-index diagnostic text of the store client, carrying
a console URL with a `create_composite=` argument. -/
def msgComposite : String :=
  "400 The query requires an index. You can create it here: https://console.firebase.google.com/v1/r/project/demo/firestore/indexes?create_composite=ClFwcm9qZWN0cw"

/-- A diagnostic text whose only link carries a `create_composite=` query
argument on a host other than the firebase console. -/
def msgForeignHost : String :=
  "400 index missing, see https://evil.example/make?create_composite=Abc for details"

/-! ## Lemmas: the lexicographic string order -/

theorem strLtB_irrefl : ∀ x : List Char, strLtB x x = false
  | [] => rfl
  | a :: as => by simp [strLtB, strLtB_irrefl as]

theorem strLtB_trans : ∀ x y z : List Char,
    strLtB x y = true → strLtB y z = true → strLtB x z = true
  | [], _, _ :: _, _, _ => rfl
  | _, y, [], _, h2 => absurd h2 (by cases y <;> simp [strLtB])
  | _ :: _, [], _ :: _, h1, _ => absurd h1 (by simp [strLtB])
  | a :: as, b :: bs, c :: cs, h1, h2 => by
    simp only [strLtB, Bool.or_eq_true, Bool.and_eq_true, beq_iff_eq,
      decide_eq_true_eq] at h1 h2 ⊢
    rcases h1 with h1 | ⟨rfl, h1⟩
    · rcases h2 with h2 | ⟨rfl, h2⟩
      · exact Or.inl (lt_trans h1 h2)
      · exact Or.inl h1
    · rcases h2 with h2 | ⟨rfl, h2⟩
      · exact Or.inl h2
      · exact Or.inr ⟨rfl, strLtB_trans as bs cs h1 h2⟩

theorem strLtB_trichotomy : ∀ x y : List Char,
    strLtB x y = true ∨ x = y ∨ strLtB y x = true
  | [], [] => Or.inr (Or.inl rfl)
  | [], _ :: _ => Or.inl rfl
  | _ :: _, [] => Or.inr (Or.inr rfl)
  | a :: as, b :: bs => by
    rcases lt_trichotomy a b with h | rfl | h
    · exact Or.inl (by simp [strLtB, h])
    · rcases strLtB_trichotomy as bs with h | rfl | h
      · exact Or.inl (by simp [strLtB, h])
      · exact Or.inr (Or.inl rfl)
      · exact Or.inr (Or.inr (by simp [strLtB, h]))
    · exact Or.inr (Or.inr (by simp [strLtB, h]))

theorem strLtB_asymm {x y : List Char} (h1 : strLtB x y = true) (h2 : strLtB y x = true) :
    False := by
  have := strLtB_trans x y x h1 h2
  rw [strLtB_irrefl] at this
  cases this

theorem strLeB_refl (a : String) : strLeB a a = true := by
  simp [strLeB, strLtB_irrefl]

theorem strLeB_total (a b : String) : strLeB a b = true ∨ strLeB b a = true := by
  simp only [strLeB, Bool.not_eq_true']
  cases h : strLtB b.data a.data
  · exact Or.inl rfl
  · cases h2 : strLtB a.data b.data
    · exact Or.inr rfl
    · exact (strLtB_asymm h h2).elim

theorem strLeB_trans (a b c : String) (h1 : strLeB a b = true) (h2 : strLeB b c = true) :
    strLeB a c = true := by
  simp only [strLeB, Bool.not_eq_true'] at h1 h2 ⊢
  by_contra hc
  rw [Bool.not_eq_false] at hc
  rcases strLtB_trichotomy b.data a.data with h | heq | h
  · rw [h] at h1; cases h1
  · rw [heq] at h2; rw [h2] at hc; cases hc
  · have := strLtB_trans c.data a.data b.data hc h
    rw [this] at h2; cases h2

/-! ## Lemmas: generic list facts -/

theorem take1_filter {α : Type} (p : α → Bool) :
    ∀ l : List α, (l.filter p).take 1 = (l.find? p).toList
  | [] => rfl
  | a :: l => by
    cases h : p a
    · rw [List.filter_cons_of_neg (by simp [h]), List.find?_cons_of_neg _ (by simp [h])]
      exact take1_filter p l
    · rw [List.filter_cons_of_pos (by simp [h]), List.find?_cons_of_pos _ h]
      rfl

/-! ## Lemmas: the remediation-URL extraction -/

theorem containsSub_of_isPrefixOf {pat s : List Char} {i : Nat}
    (h : pat.isPrefixOf (s.drop i) = true) (hi : i ≤ s.length) :
    containsSub pat s = true := by
  unfold containsSub
  rw [List.any_eq_true]
  exact ⟨i, List.mem_range.2 (Nat.lt_succ_of_le hi), h⟩

theorem consolePrefixLen_bounds {s : List Char} {i p : Nat}
    (h : consolePrefixLen s i = some p) : i < p ∧ p ≤ s.length := by
  unfold consolePrefixLen at h
  split at h
  case isTrue hpre =>
    injection h with h
    rw [ List.isPrefixOf_iff_prefix] at hpre
    have hlen := hpre.length_le
    rw [List.length_drop] at hlen
    have h36 : httpsConsole.length = 36 := by decide
    omega
  case isFalse =>
    split at h
    case isTrue hpre =>
      injection h with h
      rw [ List.isPrefixOf_iff_prefix] at hpre
      have hlen := hpre.length_le
      rw [List.length_drop] at hlen
      have h35 : httpConsole.length = 35 := by decide
      omega
    case isFalse => cases h

theorem console_occurs {s : List Char} {i p : Nat}
    (h : consolePrefixLen s i = some p) : containsSub conLit s = true := by
  unfold consolePrefixLen at h
  have key : ∀ (pre : List Char) (k : Nat), conLit <+: pre.drop k →
      pre.isPrefixOf (s.drop i) = true → containsSub conLit s = true := by
    intro pre k hck hpre
    rw [ List.isPrefixOf_iff_prefix] at hpre
    obtain ⟨t, ht⟩ := hpre
    have hdrop : s.drop (i + k) = pre.drop k ++ t.drop (k - pre.length) := by
      rw [← List.drop_drop, ← ht, List.drop_append_eq_append_drop]
    have hpref : conLit <+: s.drop (i + k) := by
      rw [hdrop]
      exact hck.trans (List.prefix_append _ _)
    have hbound : i + k ≤ s.length := by
      have hlen := hpref.length_le
      rw [List.length_drop] at hlen
      have : 0 < conLit.length := by decide
      omega
    exact containsSub_of_isPrefixOf ( List.isPrefixOf_iff_prefix.2 hpref) hbound
  split at h
  case isTrue hpre => exact key httpsConsole 8 (by decide) hpre
  case isFalse =>
    split at h
    case isTrue hpre => exact key httpConsole 7 (by decide) hpre
    case isFalse => cases h

theorem genMatchAt_some {s : List Char} {i : Nat} {lit : List Char}
    {midOk tailOk : Char → Bool} {g : Nat} {u : List Char}
    (hm : genMatchAt s i lit midOk tailOk g = some u) (hlit : lit ≠ []) :
    u ≠ [] ∧ u.isPrefixOf (s.drop i) = true ∧ i < s.length := by
  unfold genMatchAt at hm
  cases hcp : consolePrefixLen s i with
  | none => rw [hcp] at hm; cases hm
  | some p =>
    rw [hcp] at hm
    dsimp only at hm
    cases hj : (genCands s p lit midOk tailOk g).getLast? with
    | none => rw [hj] at hm; cases hm
    | some j =>
      rw [hj] at hm
      injection hm with hm
      have hjmem := List.mem_of_getLast?_eq_some hj
      unfold genCands at hjmem
      rw [List.mem_filter] at hjmem
      obtain ⟨-, hcond⟩ := hjmem
      simp only [Bool.and_eq_true, decide_eq_true_eq] at hcond
      obtain ⟨⟨⟨hpj, hlitpre⟩, -⟩, -⟩ := hcond
      obtain ⟨hip, -⟩ := consolePrefixLen_bounds hcp
      have hlitlen : 0 < lit.length := List.length_pos.2 hlit
      have hjs : j < s.length := by
        by_contra hle
        rw [Nat.not_lt] at hle
        rw [List.drop_eq_nil_of_le hle] at hlitpre
        rw [ List.isPrefixOf_iff_prefix, List.prefix_nil] at hlitpre
        exact hlit hlitpre
      have his : i < s.length := by omega
      have hE : 1 ≤ j + lit.length + tailRun s tailOk (j + lit.length) - i := by omega
      subst hm
      refine ⟨?_, ?_, his⟩
      · rw [← List.length_pos, seg, List.length_take, List.length_drop]
        omega
      · rw [seg, List.isPrefixOf_iff_prefix ]
        exact List.take_prefix _ _

theorem searchGen_some {s : List Char} {lit : List Char}
    {midOk tailOk : Char → Bool} {g : Nat} {u : List Char}
    (h : ((List.range s.length).findSome? fun i => genMatchAt s i lit midOk tailOk g) = some u)
    (hlit : lit ≠ []) :
    u ≠ [] ∧ containsSub u s = true := by
  rw [List.findSome?_eq_some_iff] at h
  obtain ⟨l₁, i, l₂, -, hi, -⟩ := h
  obtain ⟨hne, hpre, his⟩ := genMatchAt_some hi hlit
  exact ⟨hne, containsSub_of_isPrefixOf hpre (Nat.le_of_lt his)⟩

theorem search1_some {s : List Char} {u : List Char} (h : search1 s = some u) :
    u ≠ [] ∧ containsSub u s = true :=
  searchGen_some h (by decide)

theorem search2_some {s : List Char} {u : List Char} (h : search2 s = some u) :
    u ≠ [] ∧ containsSub u s = true :=
  searchGen_some h (by decide)

theorem genMatchAt_none_of_no_console {s : List Char} {i : Nat} {lit : List Char}
    {midOk tailOk : Char → Bool} {g : Nat}
    (h : containsSub conLit s = false) : genMatchAt s i lit midOk tailOk g = none := by
  cases hcp : consolePrefixLen s i with
  | none => unfold genMatchAt; rw [hcp]
  | some p =>
    have := console_occurs hcp
    rw [h] at this
    cases this

theorem String.mk_ne_empty {u : List Char} (h : u ≠ []) : (⟨u⟩ : String) ≠ "" := by
  intro hc
  exact h (congrArg String.data hc)

theorem search1_eq_none_of_no_pattern {s : String} (h : hasPattern1 s = false) :
    search1 s.data = none := by
  cases hs : search1 s.data with
  | none => rfl
  | some u =>
    exfalso
    have hsome : (search1 s.data).isSome := by rw [hs]; rfl
    rw [search1, List.findSome?_isSome_iff] at hsome
    obtain ⟨i, hmem, hi⟩ := hsome
    have : hasPattern1 s = true := by
      rw [hasPattern1, List.any_eq_true]
      exact ⟨i, hmem, hi⟩
    rw [h] at this
    cases this

theorem search2_eq_none_of_no_pattern {s : String} (h : hasPattern2 s = false) :
    search2 s.data = none := by
  cases hs : search2 s.data with
  | none => rfl
  | some u =>
    exfalso
    have hsome : (search2 s.data).isSome := by rw [hs]; rfl
    rw [search2, List.findSome?_isSome_iff] at hsome
    obtain ⟨i, hmem, hi⟩ := hsome
    have : hasPattern2 s = true := by
      rw [hasPattern2, List.any_eq_true]
      exact ⟨i, hmem, hi⟩
    rw [h] at this
    cases this

theorem extract_empty_of_no_pattern {s : String} (h1 : hasPattern1 s = false)
    (h2 : hasPattern2 s = false) : extract_index_url_from_error s = "" := by
  rw [extract_index_url_from_error, search1_eq_none_of_no_pattern h1,
    search2_eq_none_of_no_pattern h2]

theorem extract_empty_of_no_console {s : String} (h : hasConsoleLink s = false) :
    extract_index_url_from_error s = "" := by
  rw [hasConsoleLink] at h
  have hs1 : search1 s.data = none := by
    rw [search1, List.findSome?_eq_none_iff]
    intro i _
    exact genMatchAt_none_of_no_console h
  have hs2 : search2 s.data = none := by
    rw [search2, List.findSome?_eq_none_iff]
    intro i _
    exact genMatchAt_none_of_no_console h
  rw [extract_index_url_from_error, hs1, hs2]

theorem extract_nonempty_of_pattern {s : String}
    (h : hasPattern1 s = true ∨ hasPattern2 s = true) :
    extract_index_url_from_error s ≠ "" ∧
      containsSub (extract_index_url_from_error s).data s.data = true := by
  cases hs1 : search1 s.data with
  | some u =>
    obtain ⟨hne, hsub⟩ := search1_some hs1
    rw [extract_index_url_from_error, hs1]
    exact ⟨String.mk_ne_empty hne, hsub⟩
  | none =>
    have h2 : hasPattern2 s = true := by
      rcases h with h1 | h2
      · exfalso
        rw [hasPattern1, List.any_eq_true] at h1
        obtain ⟨i, hmem, hsome⟩ := h1
        have : (search1 s.data).isSome := by
          rw [search1, List.findSome?_isSome_iff]
          exact ⟨i, hmem, hsome⟩
        rw [hs1] at this
        cases this
      · exact h2
    cases hs2 : search2 s.data with
    | some u =>
      obtain ⟨hne, hsub⟩ := search2_some hs2
      rw [extract_index_url_from_error, hs1, hs2]
      exact ⟨String.mk_ne_empty hne, hsub⟩
    | none =>
      exfalso
      rw [hasPattern2, List.any_eq_true] at h2
      obtain ⟨i, hmem, hsome⟩ := h2
      have : (search2 s.data).isSome := by
        rw [search2, List.findSome?_isSome_iff]
        exact ⟨i, hmem, hsome⟩
      rw [hs2] at this
      cases this

/-! ## Lemmas: the budget collection -/

theorem updBudget_id (i0 : Nat) (v : ℚ) (x : BudgetDoc) : (updBudget i0 v x).id = x.id := by
  rw [updBudget]; split <;> rfl

theorem updBudget_user_id (i0 : Nat) (v : ℚ) (x : BudgetDoc) :
    (updBudget i0 v x).user_id = x.user_id := by
  rw [updBudget]; split <;> rfl

theorem updBudget_month (i0 : Nat) (v : ℚ) (x : BudgetDoc) :
    (updBudget i0 v x).month = x.month := by
  rw [updBudget]; split <;> rfl

theorem budgetKey_updBudget (uid : Nat) (month : String) (i0 : Nat) (v : ℚ) (x : BudgetDoc) :
    budgetKey uid month (updBudget i0 v x) = budgetKey uid month x := by
  rw [budgetKey, budgetKey, updBudget_user_id, updBudget_month]

theorem filter_map_updBudget (uid : Nat) (month : String) (i0 : Nat) (v : ℚ) :
    ∀ l : List BudgetDoc,
      (l.map (updBudget i0 v)).filter (budgetKey uid month) =
        (l.filter (budgetKey uid month)).map (updBudget i0 v)
  | [] => rfl
  | x :: l => by
    rw [List.map_cons]
    cases h : budgetKey uid month x
    · rw [List.filter_cons_of_neg (by rw [budgetKey_updBudget, h]; exact Bool.false_ne_true),
        List.filter_cons_of_neg (by rw [h]; exact Bool.false_ne_true)]
      exact filter_map_updBudget uid month i0 v l
    · rw [List.filter_cons_of_pos (by rw [budgetKey_updBudget, h]),
        List.filter_cons_of_pos h, List.map_cons]
      rw [filter_map_updBudget uid month i0 v l]

theorem find?_map_updBudget (uid : Nat) (month : String) (i0 : Nat) (v : ℚ) :
    ∀ l : List BudgetDoc,
      (l.map (updBudget i0 v)).find? (budgetKey uid month) =
        (l.find? (budgetKey uid month)).map (updBudget i0 v)
  | [] => rfl
  | x :: l => by
    rw [List.map_cons]
    cases h : budgetKey uid month x
    · rw [List.find?_cons_of_neg _ (by rw [budgetKey_updBudget, h]; exact Bool.false_ne_true),
        List.find?_cons_of_neg _ (by rw [h]; exact Bool.false_ne_true)]
      exact find?_map_updBudget uid month i0 v l
    · rw [List.find?_cons_of_pos _ (by rw [budgetKey_updBudget, h]),
        List.find?_cons_of_pos _ h]
      rfl

theorem get_monthly_budget_eq_find? (db : DB) (uid : Nat) (month : String) :
    get_monthly_budget db uid month =
      (db.budgets.find? (budgetKey uid month)).map fun b => b.budget := by
  rw [get_monthly_budget, take1_filter]
  cases db.budgets.find? (budgetKey uid month) <;> rfl

theorem set_monthly_budget_of_some {db : DB} {uid : Nat} {month : String} {b : BudgetDoc}
    (v : ℚ) (h : db.budgets.find? (budgetKey uid month) = some b) :
    set_monthly_budget db uid month v =
      { db with budgets := db.budgets.map (updBudget b.id v) } := by
  unfold set_monthly_budget
  rw [h]

theorem set_monthly_budget_of_none {db : DB} {uid : Nat} {month : String}
    (v : ℚ) (h : db.budgets.find? (budgetKey uid month) = none) :
    set_monthly_budget db uid month v =
      { db with budgets := db.budgets ++ [⟨db.nextId, uid, month, v⟩],
                nextId := db.nextId + 1 } := by
  unfold set_monthly_budget
  rw [h]

/-- C1: for every user and month, upserting the monthly budget with amount
100 and then with amount 150 and then reading it back yields 150, and —
provided at most one budget record for the key existed beforehand, the data
model invariant — exactly one budget record for the key exists afterwards:
the second upsert updates the existing record instead of inserting a second
one. -/
theorem C1_monthly_budget_upsert (db : DB) (uid : Nat) (month : String)
    (hcnt : countBudget db uid month ≤ 1) :
    get_monthly_budget (set_monthly_budget (set_monthly_budget db uid month 100) uid month 150)
        uid month = some 150 ∧
    countBudget (set_monthly_budget (set_monthly_budget db uid month 100) uid month 150)
        uid month = 1 := by
  cases h0 : db.budgets.find? (budgetKey uid month) with
  | none =>
    have hfil : db.budgets.filter (budgetKey uid month) = [] := by
      rw [List.filter_eq_nil_iff]
      intro a ha
      exact List.find?_eq_none.1 h0 a ha
    have hkey : budgetKey uid month ⟨db.nextId, uid, month, 100⟩ = true := by
      simp [budgetKey]
    rw [set_monthly_budget_of_none 100 h0]
    have hfind1 : ((db.budgets ++ ([⟨db.nextId, uid, month, 100⟩] : List BudgetDoc)).find?
        (budgetKey uid month)) = some (⟨db.nextId, uid, month, 100⟩ : BudgetDoc) := by
      rw [List.find?_append, h0, List.find?_cons_of_pos _ hkey]
      rfl
    rw [set_monthly_budget_of_some 150 hfind1]
    constructor
    · rw [get_monthly_budget_eq_find?]
      show (((db.budgets ++ ([⟨db.nextId, uid, month, 100⟩] : List BudgetDoc)).map
        (updBudget (⟨db.nextId, uid, month, 100⟩ : BudgetDoc).id 150)).find?
          (budgetKey uid month)).map (fun b => b.budget) = some 150
      rw [find?_map_updBudget, hfind1]
      simp [updBudget]
    · show ((((db.budgets ++ ([⟨db.nextId, uid, month, 100⟩] : List BudgetDoc)).map
        (updBudget (⟨db.nextId, uid, month, 100⟩ : BudgetDoc).id 150)).filter
          (budgetKey uid month)).length) = 1
      rw [filter_map_updBudget, List.filter_append, hfil, List.filter_cons_of_pos hkey]
      simp
  | some b =>
    have hmem : b ∈ db.budgets.filter (budgetKey uid month) :=
      List.mem_filter.2 ⟨List.mem_of_find?_eq_some h0, List.find?_some h0⟩
    have hone : countBudget db uid month = 1 := by
      have : 0 < (db.budgets.filter (budgetKey uid month)).length :=
        List.length_pos_of_mem hmem
      rw [countBudget] at hcnt ⊢
      omega
    rw [set_monthly_budget_of_some 100 h0]
    have hfind1 : ((db.budgets.map (updBudget b.id 100)).find? (budgetKey uid month)) =
        some (updBudget b.id 100 b) := by
      rw [find?_map_updBudget, h0]
      rfl
    rw [set_monthly_budget_of_some 150 hfind1]
    constructor
    · rw [get_monthly_budget_eq_find?]
      show ((((db.budgets.map (updBudget b.id 100)).map
        (updBudget (updBudget b.id 100 b).id 150)).find? (budgetKey uid month)).map
          (fun x => x.budget)) = some 150
      rw [find?_map_updBudget, hfind1]
      simp [updBudget]
    · show ((((db.budgets.map (updBudget b.id 100)).map
        (updBudget (updBudget b.id 100 b).id 150)).filter (budgetKey uid month)).length) = 1
      rw [filter_map_updBudget, filter_map_updBudget]
      rw [countBudget] at hone
      simp [hone]

/-- Witness for C1 at the empty store, user 0 and month 2024-05. -/
theorem C1_monthly_budget_upsert_witness :
    get_monthly_budget (set_monthly_budget (set_monthly_budget dbEmpty 0 "2024-05" 100)
        0 "2024-05" 150) 0 "2024-05" = some 150 :=
  (C1_monthly_budget_upsert dbEmpty 0 "2024-05" (by decide)).1

/-- C10: when a budget record for `(uid, month)` already exists (and ids are
distinct, as the store guarantees), the upsert leaves every other collection,
the id counter, the number of budget records, and the `id`, `user_id` and
`month` fields of every budget record unchanged, and leaves every budget
record whose key differs from `(uid, month)` entirely unchanged. -/
theorem C10_set_budget_frame (db : DB) (uid : Nat) (month : String) (a : ℚ)
    (hnd : (db.budgets.map fun b => b.id).Nodup)
    (hex : ∃ b ∈ db.budgets, budgetKey uid month b = true) :
    (set_monthly_budget db uid month a).users = db.users ∧
    (set_monthly_budget db uid month a).categories = db.categories ∧
    (set_monthly_budget db uid month a).expenses = db.expenses ∧
    (set_monthly_budget db uid month a).incomes = db.incomes ∧
    (set_monthly_budget db uid month a).category_budgets = db.category_budgets ∧
    (set_monthly_budget db uid month a).nextId = db.nextId ∧
    (set_monthly_budget db uid month a).budgets.length = db.budgets.length ∧
    ∀ (i : Nat) (h2 : i < (set_monthly_budget db uid month a).budgets.length)
      (h1 : i < db.budgets.length),
      ((set_monthly_budget db uid month a).budgets.get ⟨i, h2⟩).id =
          (db.budgets.get ⟨i, h1⟩).id ∧
      ((set_monthly_budget db uid month a).budgets.get ⟨i, h2⟩).user_id =
          (db.budgets.get ⟨i, h1⟩).user_id ∧
      ((set_monthly_budget db uid month a).budgets.get ⟨i, h2⟩).month =
          (db.budgets.get ⟨i, h1⟩).month ∧
      (budgetKey uid month (db.budgets.get ⟨i, h1⟩) = false →
        (set_monthly_budget db uid month a).budgets.get ⟨i, h2⟩ =
          db.budgets.get ⟨i, h1⟩) := by
  have hsome : (db.budgets.find? (budgetKey uid month)).isSome := by
    rw [List.find?_isSome]
    obtain ⟨b, hb, hk⟩ := hex
    exact ⟨b, hb, hk⟩
  obtain ⟨b0, h0⟩ := Option.isSome_iff_exists.1 hsome
  rw [set_monthly_budget_of_some a h0]
  refine ⟨rfl, rfl, rfl, rfl, rfl, rfl, by simp, ?_⟩
  intro i h2 h1
  have hget : (db.budgets.map (updBudget b0.id a)).get
      ⟨i, h2⟩ = updBudget b0.id a (db.budgets.get ⟨i, h1⟩) := by
    simp [List.get_eq_getElem]
  rw [hget]
  refine ⟨updBudget_id _ _ _, updBudget_user_id _ _ _, updBudget_month _ _ _, ?_⟩
  intro hkf
  cases hid : (db.budgets.get ⟨i, h1⟩).id == b0.id with
  | false => rw [updBudget, if_neg (by rw [hid]; exact Bool.false_ne_true)]
  | true =>
    exfalso
    obtain ⟨k, hk, hbk⟩ := List.mem_iff_getElem.1 (List.mem_of_find?_eq_some h0)
    have hieq : (db.budgets.map fun b => b.id).get ⟨i, by simpa using h1⟩ =
        (db.budgets.map fun b => b.id).get ⟨k, by simpa using hk⟩ := by
      simp only [List.get_eq_getElem, List.getElem_map]
      rw [hbk]
      exact beq_iff_eq.1 hid
    have hik : i = k := by
      have := (List.Nodup.get_inj_iff hnd).1 hieq
      exact congrArg Fin.val this
    have hfin : (⟨i, h1⟩ : Fin db.budgets.length) = ⟨k, hk⟩ := Fin.ext hik
    have hxb : db.budgets.get ⟨i, h1⟩ = b0 := by
      rw [hfin, List.get_eq_getElem]
      exact hbk
    rw [hxb, List.find?_some h0] at hkf
    cases hkf

/-- Witness for C10 at a store holding one budget record. -/
theorem C10_set_budget_frame_witness :
    (set_monthly_budget dbBudget 1 "2024-05" 75).users = dbBudget.users ∧
    (set_monthly_budget dbBudget 1 "2024-05" 75).nextId = dbBudget.nextId :=
  ⟨(C10_set_budget_frame dbBudget 1 "2024-05" 75 (by decide) (by decide)).1,
   (C10_set_budget_frame dbBudget 1 "2024-05" 75 (by decide) (by decide)).2.2.2.2.2.1⟩

/-- C4: for every valid `(user, kind, name)` not already present, adding the
category and then listing the categories of that user and kind yields a list
in which `name` occurs exactly once. -/
theorem C4_add_category_once (db : DB) (uid : Nat) (name ctype : String)
    (habs : ∀ c ∈ db.categories, ¬(c.user_id = uid ∧ c.name = name ∧ c.ctype = ctype)) :
    (get_categories (add_category db uid name ctype).1 uid ctype).count name = 1 := by
  have h0 : db.categories.find?
      (fun c => c.user_id == uid && c.name == name && c.ctype == ctype) = none := by
    rw [List.find?_eq_none]
    intro c hc hcc
    simp only [Bool.and_eq_true, beq_iff_eq] at hcc
    exact habs c hc ⟨hcc.1.1, hcc.1.2, hcc.2⟩
  have e1 : (add_category db uid name ctype).1 =
      { db with categories := db.categories ++ [⟨db.nextId, uid, name, ctype⟩],
                nextId := db.nextId + 1 } := by
    unfold add_category
    rw [h0]
  rw [e1, get_categories]
  rw [List.count_eq_countP, List.countP_map]
  rw [(List.perm_insertionSort _ _).countP_eq]
  show (((db.categories ++ ([⟨db.nextId, uid, name, ctype⟩] : List CategoryDoc)).filter
      fun c => c.user_id == uid && c.ctype == ctype).countP
        ((fun x => x == name) ∘ fun c => c.name)) = 1
  rw [List.filter_append, List.countP_append]
  have hz : ((db.categories.filter fun c => c.user_id == uid && c.ctype == ctype).countP
      ((fun x => x == name) ∘ fun c => c.name)) = 0 := by
    rw [List.countP_eq_zero]
    intro c hcmem hcp
    obtain ⟨hcm, hcq⟩ := List.mem_filter.1 hcmem
    simp only [Bool.and_eq_true, beq_iff_eq] at hcq
    simp only [Function.comp_apply, beq_iff_eq] at hcp
    exact habs c hcm ⟨hcq.1, hcp, hcq.2⟩
  rw [hz]
  have hq : ((fun c : CategoryDoc => c.user_id == uid && c.ctype == ctype)
      ⟨db.nextId, uid, name, ctype⟩) = true := by simp
  simp [Function.comp]

/-- Witness for C4 at the empty store. -/
theorem C4_add_category_once_witness :
    (get_categories (add_category dbEmpty 0 "Books" "expense").1 0 "expense").count "Books" = 1 :=
  C4_add_category_once dbEmpty 0 "Books" "expense" (by decide)

/-- C9: creating a fresh user and then authenticating with the same
credentials returns the identifier of the record that creation inserted,
for any digest function (determinism is functionhood): the only user record
with that username is the created one and its stored digest equals the
digest recomputed at login. -/
theorem C9_signup_then_login (hash : String → String) (db : DB) (u p : String)
    (habs : ∀ ud ∈ db.users, ud.username ≠ u) :
    (create_user hash db u p).2.1 = true ∧
    ∃ rec : UserDoc, rec ∈ (create_user hash db u p).1.users ∧
      rec.username = u ∧ rec.password = hash p ∧ rec.id = db.nextId ∧
      authenticate hash (create_user hash db u p).1 u p = some rec.id := by
  have h0 : db.users.find? (fun x => x.username == u) = none := by
    rw [List.find?_eq_none]
    intro x hx hxx
    exact habs x hx (beq_iff_eq.1 hxx)
  have e1 : create_user hash db u p =
      ({ db with
          users := db.users ++ [⟨db.nextId, u, hash p⟩],
          categories := db.categories ++ seedCats db.nextId (db.nextId + 1)
            ((defaults_exp.map fun n => (n, "expense")) ++
              (defaults_inc.map fun n => (n, "income"))),
          nextId := db.nextId + 1 + (seedCats db.nextId (db.nextId + 1)
            ((defaults_exp.map fun n => (n, "expense")) ++
              (defaults_inc.map fun n => (n, "income")))).length }, true, "Created") := by
    unfold create_user
    rw [h0]
  rw [e1]
  refine ⟨rfl, (⟨db.nextId, u, hash p⟩ : UserDoc), ?_, rfl, rfl, rfl, ?_⟩
  · exact List.mem_append_right _ (List.mem_singleton.2 rfl)
  · rw [authenticate]
    show ((db.users ++ ([⟨db.nextId, u, hash p⟩] : List UserDoc)).find?
      (fun x => x.username == u && x.password == hash p)).map (fun x => x.id) = some db.nextId
    have hnone : db.users.find? (fun x => x.username == u && x.password == hash p) = none := by
      rw [List.find?_eq_none]
      intro x hx hxx
      rw [Bool.and_eq_true] at hxx
      exact habs x hx (beq_iff_eq.1 hxx.1)
    rw [List.find?_append, hnone, Option.none_or,
      List.find?_cons_of_pos _ (by simp)]
    rfl

/-- Witness for C9 with the identity digest at the empty store. -/
theorem C9_signup_then_login_witness :
    authenticate (fun s => s) (create_user (fun s => s) dbEmpty "alice" "pw").1
      "alice" "pw" = some 0 := by
  obtain ⟨-, rec, -, -, -, hid, hauth⟩ :=
    C9_signup_then_login (fun s => s) dbEmpty "alice" "pw" (by decide)
  rw [hauth, hid]
  rfl

/-- C5: every bound filter of the ledger list operation is inclusive: an
entry dated exactly the start or exactly the end of the range passes the
date filters, and an entry whose amount equals the lower or the upper bound
passes the amount filters. -/
theorem C5_inclusive_bounds (uid : Nat) (x : EntryDoc) (s e : String) (lo hi : ℚ)
    (hu : x.user_id = uid) :
    (x.date = s → entryFilters uid (some s) none none x = true) ∧
    (x.date = e → entryFilters uid none (some e) none x = true) ∧
    (x.amount = lo → minOk (some lo) x = true) ∧
    (x.amount = hi → maxOk (some hi) x = true) := by
  refine ⟨?_, ?_, ?_, ?_⟩
  · intro hd
    simp [entryFilters, hu, ← hd, strLeB_refl]
  · intro hd
    simp [entryFilters, hu, ← hd, strLeB_refl]
  · intro ha
    simp [minOk, ha]
  · intro ha
    simp [maxOk, ha]

/-- Witness for C5 at a concrete entry whose date and amount sit exactly on
the bounds. -/
theorem C5_inclusive_bounds_witness :
    entryFilters 4 (some "2024-05-07") none none ⟨9, 4, "2024-05-07", "Food", 12, "d"⟩ = true ∧
    entryFilters 4 none (some "2024-05-07") none ⟨9, 4, "2024-05-07", "Food", 12, "d"⟩ = true ∧
    minOk (some 12) ⟨9, 4, "2024-05-07", "Food", 12, "d"⟩ = true ∧
    maxOk (some 12) ⟨9, 4, "2024-05-07", "Food", 12, "d"⟩ = true :=
  ⟨(C5_inclusive_bounds 4 ⟨9, 4, "2024-05-07", "Food", 12, "d"⟩ "2024-05-07" "x" 0 0 rfl).1 rfl,
   (C5_inclusive_bounds 4 ⟨9, 4, "2024-05-07", "Food", 12, "d"⟩ "x" "2024-05-07" 0 0 rfl).2.1 rfl,
   (C5_inclusive_bounds 4 ⟨9, 4, "2024-05-07", "Food", 12, "d"⟩ "x" "y" 12 0 rfl).2.2.1 rfl,
   (C5_inclusive_bounds 4 ⟨9, 4, "2024-05-07", "Food", 12, "d"⟩ "x" "y" 0 12 rfl).2.2.2 rfl⟩

/-- C6: every successful ledger list call returns a sequence sorted
descending by the date string under lexicographic comparison: each row's
date is greater than or equal to the next row's date. -/
theorem C6_list_sorted_desc (db : DB) (uid : Nat) (sd ed cat qt : Option String)
    (lo hi : Option ℚ) (lim : Nat) :
    List.Chain' (fun a b : EntryDoc => strLeB b.date a.date = true)
        (get_expenses db uid sd ed cat qt lo hi lim) ∧
    List.Chain' (fun a b : EntryDoc => strLeB b.date a.date = true)
        (get_incomes db uid sd ed cat qt lo hi lim) := by
  haveI : IsTrans EntryDoc (fun a b => strLeB b.date a.date = true) :=
    ⟨fun a b c h1 h2 => strLeB_trans c.date b.date a.date h2 h1⟩
  haveI : IsTotal EntryDoc (fun a b => strLeB b.date a.date = true) :=
    ⟨fun a b => strLeB_total b.date a.date⟩
  exact ⟨List.Pairwise.chain' (List.sorted_insertionSort _ _),
    List.Pairwise.chain' (List.sorted_insertionSort _ _)⟩

/-- C8: no store failure during a read escapes: a failed ledger list returns
the empty collection and a failed monthly-budget lookup returns `none`,
whatever the failure and whatever the client-side arguments. -/
theorem C8_read_failures_return_defaults (err : StoreErr) (qt : Option String)
    (lo hi : Option ℚ) :
    get_expenses_fetched (Except.error err) qt lo hi = [] ∧
    get_incomes_fetched (Except.error err) qt lo hi = [] ∧
    get_monthly_budget_fetched (Except.error err) = none :=
  ⟨rfl, rfl, rfl⟩

/-- C7: the fetch limit is applied before the client-side refinements: the
result has at most `n` rows and is drawn from the at-most-`n` fetched rows;
and there is a store and filter combination for which the result has fewer
rows than the stored entries matching all criteria. -/
theorem C7_limit_before_refinement (db : DB) (uid : Nat) (sd ed cat qt : Option String)
    (lo hi : Option ℚ) (n : Nat) (hn : 0 < n) :
    (get_expenses db uid sd ed cat qt lo hi n).length ≤ n ∧
    (∀ x ∈ get_expenses db uid sd ed cat qt lo hi n,
      x ∈ collection_to_df db.expenses (entryFilters uid sd ed cat) n) ∧
    (collection_to_df db.expenses (entryFilters uid sd ed cat) n).length ≤ n ∧
    (∃ (db2 : DB) (uid2 : Nat) (qt2 : Option String) (n2 : Nat),
      (get_expenses db2 uid2 none none none qt2 none none n2).length <
        (db2.expenses.filter (matchesAllCriteria uid2 none none none qt2 none none)).length) := by
  have hcl : (collection_to_df db.expenses (entryFilters uid sd ed cat) n).length ≤ n := by
    rw [collection_to_df, if_neg (Nat.pos_iff_ne_zero.1 hn)]
    rw [List.length_take]
    exact Nat.min_le_left _ _
  refine ⟨?_, ?_, hcl, ⟨dbLimit, 3, some "cof", 1, by decide⟩⟩
  · calc (get_expenses db uid sd ed cat qt lo hi n).length
        = ((((collection_to_df db.expenses (entryFilters uid sd ed cat) n).filter
            (descrMatch qt)).filter (minOk lo)).filter (maxOk hi)).length := by
          simp [get_expenses, get_expenses_fetched, List.length_insertionSort]
      _ ≤ n := le_trans (List.length_filter_le _ _)
            (le_trans (List.length_filter_le _ _)
              (le_trans (List.length_filter_le _ _) hcl))
  · intro x hx
    simp only [get_expenses, get_expenses_fetched, List.mem_insertionSort] at hx
    exact List.mem_of_mem_filter (List.mem_of_mem_filter (List.mem_of_mem_filter hx))

/-- Witness for C7 at the two-entry store with a text filter and limit 1. -/
theorem C7_limit_before_refinement_witness :
    (get_expenses dbLimit 3 none none none (some "cof") none none 1).length ≤ 1 :=
  (C7_limit_before_refinement dbLimit 3 none none none (some "cof") none none 1
    (by decide)).1

/-- C3: for the ledger holding exactly expense (2024-05-03, Food, 20),
expense (2024-05-20, Food, 5) and income (2024-05-01, Salary, 1000),
the summary of month 2024-05 — sums over the lists bounded by month-01 and
month-31 — yields total expense 25, total income 1000, net 975, and an
expense category breakdown holding exactly Food with 25: every category
other than Food sums to zero. -/
theorem C3_summarize_scenario :
    report_summary dbC3 0 "2024-05" = (25, 1000, 975) ∧
    categorySum (reportExpenses dbC3 0 "2024-05") "Food" = 25 ∧
    (∀ c : String, categorySum (reportExpenses dbC3 0 "2024-05") c ≠ 0 → c = "Food") := by
  have hexp : reportExpenses dbC3 0 "2024-05" =
      [⟨2, 0, "2024-05-20", "Food", 5, ""⟩, ⟨1, 0, "2024-05-03", "Food", 20, ""⟩] := by
    decide
  have hinc : get_incomes dbC3 0 (some "2024-05-01") (some "2024-05-31")
      none none none none 1000 = [⟨3, 0, "2024-05-01", "Salary", 1000, ""⟩] := by
    decide
  refine ⟨?_, ?_, ?_⟩
  · show (amountSum (reportExpenses dbC3 0 "2024-05"),
      amountSum (get_incomes dbC3 0 (some "2024-05-01") (some "2024-05-31")
        none none none none 1000),
      amountSum (get_incomes dbC3 0 (some "2024-05-01") (some "2024-05-31")
        none none none none 1000) -
        amountSum (reportExpenses dbC3 0 "2024-05")) = ((25 : ℚ), (1000 : ℚ), (975 : ℚ))
    rw [hexp, hinc]
    norm_num [amountSum]
  · rw [hexp]
    norm_num [categorySum, amountSum]
  · intro c hc
    rw [hexp] at hc
    by_cases hcf : c = "Food"
    · exact hcf
    · exfalso
      apply hc
      have hne : (("Food" == c) = false) := by
        rw [beq_eq_false_iff_ne]
        exact fun h => hcf h.symm
      simp [categorySum, amountSum, hne]

/-- C2 (amended): whenever either link pattern — a console.firebase.google.com
URL carrying `create_composite=` followed by at least one plain character, or
a console.firebase.google.com URL with an `/indexes?` query string — occurs
in a diagnostic text, the extraction returns a non-empty URL that occurs
verbatim in the text; for every diagnostic text without such a link pattern
the extraction returns the empty string; and `safe_get` reports a
missing-index failure as a `FailedPrecondition` (the `IndexRequired` kind),
never as an unrelated error type. -/
theorem C2_index_hint_extraction (s : String) :
    (hasPattern1 s = true ∨ hasPattern2 s = true →
      extract_index_url_from_error s ≠ "" ∧
        containsSub (extract_index_url_from_error s).data s.data = true) ∧
    (hasPattern1 s = false ∧ hasPattern2 s = false →
      extract_index_url_from_error s = "") ∧
    (∀ m : String, ∃ m2 : String,
      safe_get (α := List EntryDoc) (Except.error (StoreErr.failedPrecondition m)) =
        Except.error (StoreErr.failedPrecondition m2)) :=
  ⟨extract_nonempty_of_pattern, fun h => extract_empty_of_no_pattern h.1 h.2,
    fun m => ⟨"Index required: " ++ m ++ ". Create it here: " ++
      extract_index_url_from_error m, rfl⟩⟩

/-- Witness for C2 at a realistic missing-index diagnostic. -/
theorem C2_index_hint_extraction_witness :
    extract_index_url_from_error msgComposite ≠ "" :=
  ((C2_index_hint_extraction msgComposite).1 (Or.inl (by decide))).1

/-- Counterexample to C2 as frozen: this diagnostic text contains a URL
(`https://evil.example/make?create_composite=Abc`) whose query string carries
`create_composite=`, yet the extraction returns the empty string, because
both source patterns additionally require the link to live on the
console.firebase.google.com host. -/
theorem C2_index_hint_extraction_counterexample :
    containsSub "https://".data msgForeignHost.data = true ∧
    containsSub "/make?create_composite=Abc".data msgForeignHost.data = true ∧
    extract_index_url_from_error msgForeignHost = "" :=
  ⟨by decide, by decide, by decide⟩

/-- Witness for C3: the totals of the scenario store. -/
theorem C3_summarize_scenario_witness :
    report_summary dbC3 0 "2024-05" = (25, 1000, 975) :=
  C3_summarize_scenario.1

/-- Witness for C6 at the scenario store. -/
theorem C6_list_sorted_desc_witness :
    List.Chain' (fun a b : EntryDoc => strLeB b.date a.date = true)
      (get_expenses dbC3 0 none none none none none none 1000) :=
  (C6_list_sorted_desc dbC3 0 none none none none none none 1000).1

/-- Witness for C8 at a concrete failure. -/
theorem C8_read_failures_return_defaults_witness :
    get_expenses_fetched (Except.error (StoreErr.other "boom")) none none none = [] :=
  (C8_read_failures_return_defaults (StoreErr.other "boom") none none none).1
